import Mathlib

/-!
Verification of the salticidae networking library core
(src/include/salticidae/network.h and src/include/salticidae/conn.h).

The development shallowly embeds, directly from the source:
  * the framed message codec loop `MsgNetwork::on_read`,
  * the `PeerNetwork` handshake state machine (`Peer::get_nonce`,
    `ping_handler`, `pong_handler`, `finish_handshake`, `on_teardown`,
    `conn_peer`, `start_active_conn`, `set_peer_addr`, `del_peer`),
  * the send-queue bound of `ConnPool::Conn::write`, and
  * the chainable `MsgNetwork::Config` setters.

Components of the repository that are not present under src/ (the wire codec
of msg.h and the MPSC queue of buffer.h) are modelled from the specification
and marked as such on their doc comments.
-/

namespace Salticidae

/-- Pointwise update of a function at one key, used to model in-place
mutation of a single connection object's field. -/
def upd {α : Type} (f : Nat → α) (k : Nat) (v : α) : Nat → α :=
  fun x => if x = k then v else f x

theorem upd_same {α : Type} (f : Nat → α) (k : Nat) (v : α) : upd f k v k = v := by
  simp [upd]

theorem upd_other {α : Type} (f : Nat → α) (k x : Nat) (v : α) (h : x ≠ k) :
    upd f k v x = f x := by
  simp [upd, h]

/-! ## Framed message codec (`MsgNetwork::on_read`, network.h lines 606-660)

A message (msg.h is not under src/) is modelled from the spec:
header `magic: u32 | opcode: OpcodeT | length: u32 | checksum: u32`,
little-endian, with the default `OpcodeType = uint8_t`, so the header
occupies 4 + 1 + 4 + 4 = 13 bytes, followed by `length` payload bytes. -/

/-- Little-endian decoding of four bytes into a 32-bit value. -/
def fromLE4 : List Nat → Nat
  | [b0, b1, b2, b3] => b0 + 256 * b1 + 65536 * b2 + 16777216 * b3
  | _ => 0

/-- Little-endian encoding of a 32-bit value into four bytes. -/
def toLE4 (n : Nat) : List Nat :=
  [n % 256, n / 256 % 256, n / 65536 % 256, n / 16777216 % 256]

theorem fromLE4_toLE4 (n : Nat) : fromLE4 (toLE4 n) = n % 4294967296 := by
  simp only [toLE4, fromLE4]
  omega

/-- Modelled from the spec: the fixed header size of msg.h with the default
one-byte opcode type. -/
def headerSize : Nat := 13

/-- Modelled from the spec: the `length` field of a frame header sits after
the 4-byte magic and the 1-byte opcode. -/
def decodeLen (hdr : List Nat) : Nat := fromLE4 ((hdr.drop 5).take 4)

/-- Modelled from the spec: the `checksum` field of a frame header is its
last four bytes. -/
def decodeCk (hdr : List Nat) : Nat := fromLE4 ((hdr.drop 9).take 4)

/-- The two-state parser of `MsgNetwork::Conn` (network.h lines 74-77). -/
inductive MsgState where
  | HEADER
  | PAYLOAD
deriving DecidableEq, Repr

/-- The fatal error thrown by `on_read` for an oversized frame
(`SALTI_ERROR_CONN_OVERSIZED_MSG`, network.h line 626). -/
inductive CodecErr where
  | OVERSIZED
deriving DecidableEq, Repr

/-- The per-connection codec state driven by `on_read`: the recv buffer, the
parser state `msg_state`, and the header fields of the partially decoded
`msg` (its declared payload length and its checksum field). -/
structure CodecState where
  buf : List Nat
  st : MsgState
  curLen : Nat
  curCk : Nat
deriving DecidableEq, Repr

/-- The parsing loop of `MsgNetwork::on_read` (network.h lines 614-651),
parameterised by `max_msg_size` and by the payload-checksum function `ck`
(the checksum algorithm lives in msg.h, which is not under src/;
`verify_checksum` succeeds iff the header checksum field equals `ck` of the
payload).  The result is the final codec state, the list of payloads
enqueued to the inbound queue in this pass (the queue is assumed non-full:
the backpressure path is outside the claims), and the error thrown, if any.
On a checksum mismatch the source executes `break` (line 641), leaving the
whole loop with the parser back in `HEADER`. -/
def msgLoop (mms : Nat) (ck : List Nat → Nat) (cs : CodecState) :
    CodecState × List (List Nat) × Option CodecErr :=
  if hst : cs.st = .HEADER then
    if cs.buf.length < headerSize then (cs, [], none)
    else
      let hdr := cs.buf.take headerSize
      let rest := cs.buf.drop headerSize
      if decodeLen hdr > mms then
        (⟨rest, .HEADER, decodeLen hdr, decodeCk hdr⟩, [], some .OVERSIZED)
      else
        msgLoop mms ck ⟨rest, .PAYLOAD, decodeLen hdr, decodeCk hdr⟩
  else
    if cs.buf.length < cs.curLen then (cs, [], none)
    else
      let payload := cs.buf.take cs.curLen
      let rest := cs.buf.drop cs.curLen
      if ck payload ≠ cs.curCk then
        (⟨rest, .HEADER, cs.curLen, cs.curCk⟩, [], none)
      else
        let r := msgLoop mms ck ⟨rest, .HEADER, cs.curLen, cs.curCk⟩
        (r.1, payload :: r.2.1, r.2.2)
termination_by 2 * cs.buf.length + (if cs.st = .HEADER then 0 else 1)
decreasing_by
  · simp [List.length_drop, headerSize, hst] at *
    omega
  · simp [List.length_drop, hst] at *
    omega

/-- One-step unfolding of `msgLoop`: in `HEADER` state with fewer buffered
bytes than a header, the loop exits and waits for more data. -/
theorem msgLoop_header_short (mms : Nat) (ck : List Nat → Nat) (cs : CodecState)
    (h1 : cs.st = .HEADER) (h2 : cs.buf.length < headerSize) :
    msgLoop mms ck cs = (cs, [], none) := by
  rw [msgLoop]
  simp [h1, h2]

/-- One-step unfolding of `msgLoop`: in `HEADER` state, a complete header
whose declared length exceeds `max_msg_size` makes the loop throw
`CONN_OVERSIZED_MSG` at once (network.h lines 621-627). -/
theorem msgLoop_header_oversized (mms : Nat) (ck : List Nat → Nat) (cs : CodecState)
    (h1 : cs.st = .HEADER) (h2 : ¬ cs.buf.length < headerSize)
    (h3 : decodeLen (cs.buf.take headerSize) > mms) :
    msgLoop mms ck cs =
      (⟨cs.buf.drop headerSize, .HEADER, decodeLen (cs.buf.take headerSize),
        decodeCk (cs.buf.take headerSize)⟩, [], some .OVERSIZED) := by
  rw [msgLoop]
  simp [h1, h2, h3]

/-- One-step unfolding of `msgLoop`: in `HEADER` state, a complete header of
admissible length is consumed and the parser moves to `PAYLOAD`. -/
theorem msgLoop_header_ok (mms : Nat) (ck : List Nat → Nat) (cs : CodecState)
    (h1 : cs.st = .HEADER) (h2 : ¬ cs.buf.length < headerSize)
    (h3 : ¬ decodeLen (cs.buf.take headerSize) > mms) :
    msgLoop mms ck cs =
      msgLoop mms ck ⟨cs.buf.drop headerSize, .PAYLOAD,
        decodeLen (cs.buf.take headerSize), decodeCk (cs.buf.take headerSize)⟩ := by
  rw [msgLoop]
  simp [h1, h2, h3]

/-- One-step unfolding of `msgLoop`: in `PAYLOAD` state with an incomplete
payload, the loop exits and waits for more data. -/
theorem msgLoop_payload_short (mms : Nat) (ck : List Nat → Nat) (cs : CodecState)
    (h1 : cs.st = .PAYLOAD) (h2 : cs.buf.length < cs.curLen) :
    msgLoop mms ck cs = (cs, [], none) := by
  rw [msgLoop]
  simp [h1, h2]

/-- One-step unfolding of `msgLoop`: a complete payload whose checksum
verifies is enqueued and the loop continues on the remaining buffer. -/
theorem msgLoop_payload_ok (mms : Nat) (ck : List Nat → Nat) (cs : CodecState)
    (h1 : cs.st = .PAYLOAD) (h2 : ¬ cs.buf.length < cs.curLen)
    (h3 : ck (cs.buf.take cs.curLen) = cs.curCk) :
    msgLoop mms ck cs =
      ((msgLoop mms ck ⟨cs.buf.drop cs.curLen, .HEADER, cs.curLen, cs.curCk⟩).1,
       cs.buf.take cs.curLen ::
         (msgLoop mms ck ⟨cs.buf.drop cs.curLen, .HEADER, cs.curLen, cs.curCk⟩).2.1,
       (msgLoop mms ck ⟨cs.buf.drop cs.curLen, .HEADER, cs.curLen, cs.curCk⟩).2.2) := by
  rw [msgLoop]
  simp [h1, h2, h3]

/-- Modelled from the spec: the 13-byte little-endian frame header
`magic | opcode | length | checksum` of msg.h written out byte by byte. -/
def encodeHeader (magic opcode len ckv : Nat) : List Nat :=
  [magic % 256, magic / 256 % 256, magic / 65536 % 256, magic / 16777216 % 256,
   opcode % 256,
   len % 256, len / 256 % 256, len / 65536 % 256, len / 16777216 % 256,
   ckv % 256, ckv / 256 % 256, ckv / 65536 % 256, ckv / 16777216 % 256]

/-- A whole frame on the wire: the header carrying the payload's length and
checksum, followed by the payload bytes. -/
def encodeFrame (ck : List Nat → Nat) (magic opcode : Nat) (p : List Nat) : List Nat :=
  encodeHeader magic opcode p.length (ck p) ++ p

/-- A sequence of frames laid out back to back in the recv buffer. -/
def encodeFrames (ck : List Nat → Nat) : List (List Nat) → List Nat
  | [] => []
  | p :: ps => encodeFrame ck 0 0 p ++ encodeFrames ck ps

theorem encodeHeader_length (magic opcode len ckv : Nat) :
    (encodeHeader magic opcode len ckv).length = headerSize := by
  simp [encodeHeader, headerSize]

theorem decodeLen_encodeHeader (magic opcode len ckv : Nat) (rest : List Nat) :
    decodeLen ((encodeHeader magic opcode len ckv ++ rest).take headerSize) =
      len % 4294967296 := by
  simp only [encodeHeader, headerSize, List.cons_append, List.nil_append,
    List.take_succ_cons, List.take_zero, decodeLen, List.drop_succ_cons,
    List.drop_zero, fromLE4]
  omega

theorem decodeCk_encodeHeader (magic opcode len ckv : Nat) (rest : List Nat) :
    decodeCk ((encodeHeader magic opcode len ckv ++ rest).take headerSize) =
      ckv % 4294967296 := by
  simp only [encodeHeader, headerSize, List.cons_append, List.nil_append,
    List.take_succ_cons, List.take_zero, decodeCk, List.drop_succ_cons,
    List.drop_zero, fromLE4]
  omega

theorem drop_encodeHeader (magic opcode len ckv : Nat) (rest : List Nat) :
    (encodeHeader magic opcode len ckv ++ rest).drop headerSize = rest := by
  simp [encodeHeader, headerSize]

/-- Processing a well-formed frame at the head of the buffer: the header is
consumed, the payload is extracted and enqueued, and the loop continues on
the remaining bytes. -/
theorem msgLoop_frame (mms : Nat) (ck : List Nat → Nat) (magic opcode : Nat)
    (p rest : List Nat) (a b : Nat)
    (hlen : p.length ≤ mms) (hlen32 : p.length < 4294967296)
    (hck32 : ck p < 4294967296) :
    msgLoop mms ck ⟨encodeFrame ck magic opcode p ++ rest, .HEADER, a, b⟩ =
      ((msgLoop mms ck ⟨rest, .HEADER, p.length, ck p⟩).1,
       p :: (msgLoop mms ck ⟨rest, .HEADER, p.length, ck p⟩).2.1,
       (msgLoop mms ck ⟨rest, .HEADER, p.length, ck p⟩).2.2) := by
  have hbuf : encodeFrame ck magic opcode p ++ rest =
      encodeHeader magic opcode p.length (ck p) ++ (p ++ rest) := by
    simp [encodeFrame]
  have hlenbuf : ¬ (encodeFrame ck magic opcode p ++ rest).length < headerSize := by
    simp [encodeFrame, encodeHeader, headerSize]
  have hdl : decodeLen ((encodeFrame ck magic opcode p ++ rest).take headerSize) =
      p.length := by
    rw [hbuf, decodeLen_encodeHeader, Nat.mod_eq_of_lt hlen32]
  have hdc : decodeCk ((encodeFrame ck magic opcode p ++ rest).take headerSize) =
      ck p := by
    rw [hbuf, decodeCk_encodeHeader, Nat.mod_eq_of_lt hck32]
  rw [msgLoop_header_ok mms ck _ rfl hlenbuf (by rw [hdl]; omega)]
  rw [hdl, hdc, hbuf, drop_encodeHeader]
  have hp1 : ¬ (p ++ rest).length < p.length := by
    simp
  have hp2 : (p ++ rest).take p.length = p := by
    simp
  have hp3 : (p ++ rest).drop p.length = rest := by
    simp
  rw [msgLoop_payload_ok mms ck _ rfl hp1 (by rw [hp2])]
  rw [hp2, hp3]

/-- A buffer of well-formed frames followed by an oversized header yields
exactly the well-formed payloads and then the oversized error. -/
theorem msgLoop_frames_oversized (mms : Nat) (ck : List Nat → Nat)
    (ps : List (List Nat)) (magic opcode badLen badCk : Nat) (extra : List Nat)
    (a b : Nat)
    (hps : ∀ p ∈ ps, p.length ≤ mms ∧ p.length < 4294967296 ∧ ck p < 4294967296)
    (hbad : mms < badLen) (hbad32 : badLen < 4294967296)
    (hbadCk : badCk < 4294967296) :
    msgLoop mms ck
      ⟨encodeFrames ck ps ++ (encodeHeader magic opcode badLen badCk ++ extra),
       .HEADER, a, b⟩ =
      (⟨extra, .HEADER, badLen, badCk⟩, ps, some .OVERSIZED) := by
  induction ps generalizing a b with
  | nil =>
    have h2 : ¬ (encodeFrames ck [] ++ (encodeHeader magic opcode badLen badCk ++ extra)).length
        < headerSize := by
      simp [encodeFrames, encodeHeader, headerSize]
    have hbuf : encodeFrames ck [] ++ (encodeHeader magic opcode badLen badCk ++ extra) =
        encodeHeader magic opcode badLen badCk ++ extra := by
      simp [encodeFrames]
    have hdl : decodeLen ((encodeFrames ck [] ++ (encodeHeader magic opcode badLen badCk ++ extra)).take headerSize)
        = badLen := by
      rw [hbuf, decodeLen_encodeHeader, Nat.mod_eq_of_lt hbad32]
    have hdc : decodeCk ((encodeFrames ck [] ++ (encodeHeader magic opcode badLen badCk ++ extra)).take headerSize)
        = badCk := by
      rw [hbuf, decodeCk_encodeHeader, Nat.mod_eq_of_lt hbadCk]
    rw [msgLoop_header_oversized mms ck _ rfl h2 (by rw [hdl]; omega)]
    rw [hdl, hdc, hbuf, drop_encodeHeader]
  | cons p ps ih =>
    have hp := hps p (by simp)
    have hbuf : encodeFrames ck (p :: ps) ++ (encodeHeader magic opcode badLen badCk ++ extra) =
        encodeFrame ck 0 0 p ++ (encodeFrames ck ps ++ (encodeHeader magic opcode badLen badCk ++ extra)) := by
      simp [encodeFrames]
    rw [hbuf, msgLoop_frame mms ck 0 0 p _ a b hp.1 hp.2.1 hp.2.2]
    rw [ih p.length (ck p) (fun q hq => hps q (List.mem_cons_of_mem p hq))]

/-- Claim C7: for every connection whose recv buffer yields a frame header
whose declared payload length is strictly greater than `max_msg_size` (here
after any number of well-formed frames), `on_read` raises the
`CONN_OVERSIZED_MSG` error exactly once — the loop aborts at the offending
header with `some OVERSIZED` — and that frame's payload is never enqueued
to the inbound queue nor delivered: the payloads enqueued in the pass are
exactly those of the preceding well-formed frames, and the oversized
frame's payload bytes are still unread in `extra`.  (The worker catch that
converts the thrown error into a fatal `worker_terminate` is outside src/;
per the spec, an oversized frame is fatal to the connection.) -/
theorem c7_oversized_msg_fatal (mms : Nat) (ck : List Nat → Nat)
    (ps : List (List Nat)) (magic opcode badLen badCk : Nat) (extra : List Nat)
    (hps : ∀ p ∈ ps, p.length ≤ mms ∧ p.length < 4294967296 ∧ ck p < 4294967296)
    (hbad : mms < badLen) (hbad32 : badLen < 4294967296)
    (hbadCk : badCk < 4294967296) :
    (msgLoop mms ck
      ⟨encodeFrames ck ps ++ (encodeHeader magic opcode badLen badCk ++ extra),
       .HEADER, 0, 0⟩).2.2 = some .OVERSIZED ∧
    (msgLoop mms ck
      ⟨encodeFrames ck ps ++ (encodeHeader magic opcode badLen badCk ++ extra),
       .HEADER, 0, 0⟩).2.1 = ps ∧
    (msgLoop mms ck
      ⟨encodeFrames ck ps ++ (encodeHeader magic opcode badLen badCk ++ extra),
       .HEADER, 0, 0⟩).1.buf = extra := by
  rw [msgLoop_frames_oversized mms ck ps magic opcode badLen badCk extra 0 0
      hps hbad hbad32 hbadCk]
  exact ⟨rfl, rfl, rfl⟩

/-- Witness for C7 at a concrete input: one good 2-byte frame followed by a
header declaring 1025 > 1024 bytes. -/
theorem c7_oversized_msg_fatal_witness :
    (msgLoop 1024 (fun l => l.length)
      ⟨encodeFrames (fun l => l.length) [[1, 2]] ++ (encodeHeader 0 0 1025 0 ++ [5]),
       .HEADER, 0, 0⟩).2.2 = some .OVERSIZED ∧
    (msgLoop 1024 (fun l => l.length)
      ⟨encodeFrames (fun l => l.length) [[1, 2]] ++ (encodeHeader 0 0 1025 0 ++ [5]),
       .HEADER, 0, 0⟩).2.1 = [[1, 2]] ∧
    (msgLoop 1024 (fun l => l.length)
      ⟨encodeFrames (fun l => l.length) [[1, 2]] ++ (encodeHeader 0 0 1025 0 ++ [5]),
       .HEADER, 0, 0⟩).1.buf = [5] :=
  c7_oversized_msg_fatal 1024 (fun l => l.length) [[1, 2]] 0 0 1025 0 [5]
    (by decide) (by decide) (by decide) (by decide)

/-- Claim C8 (amended): when a fully received frame fails checksum
verification, the message is dropped silently (it is not delivered), the
connection is not terminated (no error is thrown), and the parser state
returns to `HEADER`; but the codec does NOT keep looping within the same
`on_read` pass — the source executes `break` (network.h line 641), so the
loop ends with the remaining buffer (which may already hold further
complete frames) left for a later pass. -/
theorem c8_checksum_mismatch_drops_and_breaks (mms : Nat) (ck : List Nat → Nat)
    (cs : CodecState) (h1 : cs.st = .PAYLOAD)
    (h2 : ¬ cs.buf.length < cs.curLen)
    (h3 : ck (cs.buf.take cs.curLen) ≠ cs.curCk) :
    msgLoop mms ck cs =
      (⟨cs.buf.drop cs.curLen, .HEADER, cs.curLen, cs.curCk⟩, [], none) := by
  rw [msgLoop]
  simp [h1, h2, h3]

/-- Witness for the amended C8 at a concrete input: a 1-byte payload whose
checksum field 1 does not match the computed checksum 0. -/
theorem c8_checksum_mismatch_drops_and_breaks_witness :
    msgLoop 1024 (fun _ => 0) ⟨[7, 9], .PAYLOAD, 1, 1⟩ =
      (⟨[9], .HEADER, 1, 1⟩, [], none) :=
  c8_checksum_mismatch_drops_and_breaks 1024 (fun _ => 0) ⟨[7, 9], .PAYLOAD, 1, 1⟩
    rfl (by decide) (by decide)

/-- Counterexample to C8 as stated: the buffer holds a complete frame with a
bad checksum (declared checksum 1, computed 0, payload `[7]`) followed by a
complete well-formed frame (payload `[9]`).  The claim says the codec keeps
looping and processes the second frame in the same `on_read` pass; the code
instead breaks out of the loop: nothing is delivered and the second frame
is still sitting unparsed in the buffer. -/
theorem c8_counterexample_break_leaves_frame :
    msgLoop 1024 (fun _ => 0)
      ⟨[0, 0, 0, 0, 0, 1, 0, 0, 0, 1, 0, 0, 0, 7,
        0, 0, 0, 0, 0, 1, 0, 0, 0, 0, 0, 0, 0, 9], .HEADER, 0, 0⟩ =
      (⟨[0, 0, 0, 0, 0, 1, 0, 0, 0, 0, 0, 0, 0, 9], .HEADER, 1, 1⟩, [], none) := by
  rw [msgLoop]
  norm_num [headerSize, decodeLen, decodeCk, fromLE4]
  rw [msgLoop]
  decide

/-! ## PeerNetwork handshake state machine (network.h lines 335-1210)

The model tracks one registered `Peer` (the state machine is per peer: the
handlers and hooks touch only the peer bound to the message's identity) and
the set of connection objects of its `PeerNetwork` node.  Connections are
named by `Nat` identifiers; `inPool c` says the object exists, `mode c` is
its `ConnMode` (DEAD once terminated, matching `is_terminated`), and
`hasPeer c` says the connection's back-pointer `Conn::peer` points at the
peer.  Network addresses are abstracted to `Nat`, `none` standing for a
null `NetAddr`.  Timers, the send/recv buffers and the callback queues do
not influence the claims and are not part of the state; `disp_terminate`
requests are recorded as effects and performed by a separate `terminate`
transition, matching their asynchronous execution. -/

/-- `Peer::State` (network.h lines 408-412). -/
inductive PState where
  | DISCONNECTED
  | CONNECTED
  | RESET
deriving DecidableEq, Repr

/-- `ConnPool::Conn::ConnMode` (conn.h lines 70-74). -/
inductive CMode where
  | ACTIVE
  | PASSIVE
  | DEAD
deriving DecidableEq, Repr

/-- The dispatcher-side state of one `PeerNetwork` node restricted to a
single registered peer and its connections. -/
structure PNState where
  peerPresent : Bool
  addr : Option Nat
  nonce : Nat
  ntry : Int
  pstate : PState
  pconn : Option Nat
  chosen : Option Nat
  inbound : Option Nat
  outbound : Option Nat
  inPool : Nat → Bool
  mode : Nat → CMode
  hasPeer : Nat → Bool

/-- The value stored by `Peer::get_nonce` when the nonce is unset: a random
16-bit draw `n` plus one (network.h lines 432-441).  `rnd % 65536` stands
for the `uint16_t` filled by `RAND_bytes`. -/
def genNonce (rnd : Nat) : Nat := rnd % 65536 + 1

/-- `Peer::get_nonce` (network.h lines 432-441): lazily draws the nonce when
the stored nonce is 0, and returns the stored nonce otherwise. -/
def get_nonce (rnd : Nat) (s : PNState) : Nat × PNState :=
  if s.nonce = 0 then (genNonce rnd, { s with nonce := genNonce rnd })
  else (s.nonce, s)

/-- The fixed passive-side sentinel nonce, set in the `PeerNetwork`
constructor (network.h line 566). -/
def passive_nonce : Nat := 0xffff

/-- `PeerNetwork::finish_handshake` (network.h lines 806-850) restricted to
the fields of the model: null the back-pointers of the unelected inbound
and outbound candidates, transition to CONNECTED, null the back-pointer of
a previous connection from a reset cycle, and make the chosen connection
the peer's current connection with its back-pointer set.  (Timer resets,
the initial heartbeat, the send-buffer drain, `pending_peers` maintenance
and the user callback do not touch modelled fields.)

`clear_backptr` models `if (conn && conn != chosen) conn->peer = nullptr`
(network.h lines 809-812). -/
def clear_backptr (f : Nat → Bool) (ob : Option Nat) (c : Nat) : Nat → Bool :=
  match ob with
  | some k => if k ≠ c then upd f k false else f
  | none => f

/-- `if (conn) conn->peer = nullptr` on an optional candidate, as in the
`Peer` destructor and `finish_handshake`'s previous-connection clearing. -/
def clear_backptr_uncond (f : Nat → Bool) (ob : Option Nat) : Nat → Bool :=
  match ob with
  | some k => upd f k false
  | none => f

def finish_handshake (s : PNState) : PNState :=
  match s.chosen with
  | none => s
  | some c =>
    { s with
        pstate := .CONNECTED
        pconn := some c
        hasPeer := upd (clear_backptr_uncond
          (clear_backptr (clear_backptr s.hasPeer s.inbound c) s.outbound c)
          s.pconn) c true }

/-- The effects a handshake handler requests besides its state update:
the nonce carried by a `Pong` reply (`none` when no handshake pong is
sent), a heartbeat `Pong` reply, a `disp_terminate` of a stale candidate,
a `disp_terminate` of the handling connection itself, and whether
`finish_handshake` ran choosing that connection. -/
structure HFx where
  pongNonce : Option Nat
  heartbeatPong : Bool
  termOld : Option Nat
  termConn : Bool
  finished : Bool
deriving DecidableEq, Repr

/-- `PeerNetwork::ping_handler` (network.h lines 886-948), i.e. the body of
the task it posts to the dispatcher, for connection `c` and a `MsgPing`
with claimed address `claimedAddr` (`none` = heartbeat) and nonce
`msgNonce`.  `rnd` feeds a lazy `get_nonce` draw.  In the single-peer model
the `known_peers` lookup of the message's peer identity succeeds iff the
peer is present. -/
def ping_handler (c : Nat) (claimedAddr : Option Nat) (msgNonce : Nat) (rnd : Nat)
    (s : PNState) : PNState × HFx :=
  if s.mode c = .DEAD then (s, ⟨none, false, none, false, false⟩)
  else
    match claimedAddr with
    | some x =>
      if s.mode c = .PASSIVE then
        if s.peerPresent = false then
          (s, ⟨none, false, none, true, false⟩)
        else if s.pstate ≠ .DISCONNECTED ∨ (s.addr ≠ none ∧ s.addr ≠ some x) then
          (s, ⟨none, false, none, false, false⟩)
        else
          let pong := if s.addr = none then (passive_nonce, s) else get_nonce rnd s
          let s1 := pong.2
          let termOld :=
            match s1.inbound with
            | some oc => if oc = c then none else some oc
            | none => none
          let s2 := { s1 with inbound := some c }
          let loc := get_nonce rnd s2
          let s3 := loc.2
          if msgNonce < loc.1 ∨ s3.addr = none then
            (finish_handshake { s3 with chosen := some c },
             ⟨some pong.1, false, termOld, false, true⟩)
          else
            (s3, ⟨some pong.1, false, termOld, true, false⟩)
      else
        (s, ⟨none, false, none, false, false⟩)
    | none =>
      (s, ⟨none, true, none, false, false⟩)

/-- `PeerNetwork::pong_handler` (network.h lines 950-1022), the body of the
task it posts to the dispatcher, for connection `c` and a `MsgPong` with
claimed address `claimedAddr` (`none` = heartbeat) and nonce `msgNonce`.
The heartbeat branch only touches the liveness flags, which are outside
the model. -/
def pong_handler (c : Nat) (claimedAddr : Option Nat) (msgNonce : Nat) (rnd : Nat)
    (s : PNState) : PNState × HFx :=
  if s.mode c = .DEAD then (s, ⟨none, false, none, false, false⟩)
  else
    match claimedAddr with
    | some x =>
      if s.mode c = .ACTIVE then
        if s.peerPresent = false then
          (s, ⟨none, false, none, true, false⟩)
        else if s.pstate ≠ .DISCONNECTED ∨ s.addr ≠ some x then
          (s, ⟨none, false, none, false, false⟩)
        else
          let termOld :=
            match s.outbound with
            | some oc => if oc = c then none else some oc
            | none => none
          let s1 := { s with outbound := some c }
          let loc := get_nonce rnd s1
          let s2 := loc.2
          if loc.1 < msgNonce then
            (finish_handshake { s2 with chosen := some c },
             ⟨none, false, termOld, false, true⟩)
          else
            ({ s2 with nonce := 0 }, ⟨none, false, termOld, true, false⟩)
      else
        (s, ⟨none, false, none, false, false⟩)
    | none =>
      (s, ⟨none, false, none, false, false⟩)

/-- The effects of the teardown hook: whether `peer_cb(conn, false)` was
posted, whether a retry timer was armed, and whether it was armed with an
immediate zero delay rather than a jittered `retry_delay`. -/
structure TdFx where
  notified : Bool
  retryArmed : Bool
  retryZeroDelay : Bool
deriving DecidableEq, Repr

/-- `PeerNetwork::on_teardown` (network.h lines 743-777) for connection `c`:
nothing happens unless the connection carries a peer back-pointer; if it
was the peer's current connection the peer becomes DISCONNECTED, its
candidates are cleared and its nonce reset, and the user is notified; then
`ntry` is decremented if positive, and a retry timer is armed iff the
resulting `ntry` is nonzero, with zero delay iff the state prior to the
hook was RESET. -/
def on_teardown (c : Nat) (s : PNState) : PNState × TdFx :=
  if s.peerPresent = false ∨ s.hasPeer c = false then (s, ⟨false, false, false⟩)
  else
    let reset : Bool := s.pstate = .RESET
    let step1 :=
      if s.pconn = some c then
        ({ s with pstate := .DISCONNECTED, inbound := none, outbound := none,
                  nonce := 0 }, true)
      else (s, false)
    let s1 := step1.1
    let s2 := if s1.ntry > 0 then { s1 with ntry := s1.ntry - 1 } else s1
    if s2.ntry ≠ 0 then (s2, ⟨step1.2, true, reset⟩)
    else (s2, ⟨step1.2, false, false⟩)

/-- A connection's full termination as seen by the dispatcher: the mode
becomes DEAD (`stop`) and then the `on_teardown` hook runs. -/
def terminate_conn (c : Nat) (s : PNState) : PNState :=
  (on_teardown c { s with mode := upd s.mode c .DEAD }).1

/-- `PeerNetwork::start_active_conn` (network.h lines 868-874): `_connect`
creates a fresh ACTIVE connection object (back-pointer null) which becomes
the peer's outbound candidate. -/
def start_active_conn (c : Nat) (s : PNState) : PNState :=
  { s with inPool := upd s.inPool c true, mode := upd s.mode c .ACTIVE,
           hasPeer := upd s.hasPeer c false, outbound := some c }

/-- `ConnPool::accept_client`: a fresh PASSIVE connection object enters the
pool (conn.h; the peer registry is untouched). -/
def accept_conn (c : Nat) (s : PNState) : PNState :=
  { s with inPool := upd s.inPool c true, mode := upd s.mode c .PASSIVE,
           hasPeer := upd s.hasPeer c false }

/-- `PeerNetwork::conn_peer` (network.h lines 1048-1080): configure the
retry policy, clear the candidates and the nonce, then either start an
active connection (fresh id `newCid`) or, when currently CONNECTED, move to
RESET and request termination of the current connection. -/
def conn_peer (ntry : Int) (newCid : Nat) (s : PNState) : PNState :=
  if s.peerPresent = false then s
  else if s.addr = none then s
  else
    let s1 := { s with ntry := ntry, inbound := none, outbound := none, nonce := 0 }
    if s1.pconn = none ∨ s1.pstate = .DISCONNECTED then start_active_conn newCid s1
    else if s1.pstate = .CONNECTED then { s1 with pstate := .RESET }
    else s1

/-- `PeerNetwork::set_peer_addr` (network.h lines 1082-1097). -/
def set_peer_addr (a : Nat) (s : PNState) : PNState :=
  if s.peerPresent then { s with addr := some a } else s

/-- `PeerNetwork::del_peer` (network.h lines 1100-1125) together with the
`Peer` destructor (lines 444-447): the peer is unregistered and the
lingering candidates' back-pointers are cleared.  The termination it
requests for the peer's current connection is a separate transition. -/
def del_peer (s : PNState) : PNState :=
  if s.peerPresent = false then s
  else
    { s with
        peerPresent := false
        hasPeer := clear_backptr_uncond (clear_backptr_uncond s.hasPeer s.inbound)
          s.outbound }

/-- The state right after `add_peer` registers the peer (network.h lines
1032-1046, `Peer` constructor lines 414-420): DISCONNECTED, no address, no
nonce, no connections. -/
def initState : PNState :=
  { peerPresent := true, addr := none, nonce := 0, ntry := 0,
    pstate := .DISCONNECTED, pconn := none, chosen := none,
    inbound := none, outbound := none,
    inPool := fun _ => false, mode := fun _ => .DEAD, hasPeer := fun _ => false }

/-- The dispatcher-thread transitions of the peer state machine.  Fresh
connection identifiers are required not to collide with live objects, as
fresh heap objects do in the source.  Handshake handlers run on existing
connections; a termination makes a live connection DEAD exactly once. -/
inductive Step : PNState → PNState → Prop
  | accept (s : PNState) (c : Nat) (h : s.inPool c = false) :
      Step s (accept_conn c s)
  | connPeer (s : PNState) (n : Int) (newCid : Nat) (h : s.inPool newCid = false) :
      Step s (conn_peer n newCid s)
  | retryFire (s : PNState) (c : Nat) (h : s.inPool c = false)
      (hp : s.peerPresent = true) (ha : s.addr ≠ none) :
      Step s (start_active_conn c s)
  | ping (s : PNState) (c : Nat) (a : Option Nat) (n rnd : Nat)
      (h : s.inPool c = true) :
      Step s (ping_handler c a n rnd s).1
  | pong (s : PNState) (c : Nat) (a : Option Nat) (n rnd : Nat)
      (h : s.inPool c = true) :
      Step s (pong_handler c a n rnd s).1
  | term (s : PNState) (c : Nat) (h : s.inPool c = true)
      (hm : s.mode c ≠ .DEAD) :
      Step s (terminate_conn c s)
  | setAddr (s : PNState) (a : Nat) :
      Step s (set_peer_addr a s)
  | delPeer (s : PNState) :
      Step s (del_peer s)

/-- States of the peer state machine reachable from peer registration. -/
inductive Reachable : PNState → Prop
  | init : Reachable initState
  | step {s s' : PNState} : Reachable s → Step s s' → Reachable s'

/-- The inductive invariant: (i) a connection back-pointer to the peer is
carried only by the peer's current connection, and that object exists;
(ii) while CONNECTED, the chosen connection is the current one, it exists,
it is not DEAD, and it carries the back-pointer. -/
def fullInv (s : PNState) : Prop :=
  (∀ x, s.hasPeer x = true → s.pconn = some x ∧ s.inPool x = true) ∧
  (s.peerPresent = true → s.pstate = .CONNECTED →
    ∃ c, s.chosen = some c ∧ s.pconn = some c ∧ s.inPool c = true ∧
      s.mode c ≠ .DEAD ∧ s.hasPeer c = true)

/-- The invariant of claim C6, as stated: while the peer is CONNECTED its
chosen connection is non-null, not DEAD, points back to the peer, and no
other connection points to the peer. -/
def claimInv (s : PNState) : Prop :=
  s.peerPresent = true → s.pstate = .CONNECTED →
    ∃ c, s.chosen = some c ∧ s.inPool c = true ∧ s.mode c ≠ .DEAD ∧
      s.hasPeer c = true ∧ ∀ x, s.hasPeer x = true → x = c

theorem fullInv_initState : fullInv initState := by
  constructor
  · intro x hx
    simp [initState] at hx
  · intro _ hcs
    simp [initState] at hcs

theorem fullInv_accept (s : PNState) (c : Nat) (h : s.inPool c = false)
    (hi : fullInv s) : fullInv (accept_conn c s) := by
  obtain ⟨h1, h2⟩ := hi
  constructor
  · intro x hx
    simp only [accept_conn] at hx ⊢
    by_cases hxc : x = c
    · subst hxc
      rw [upd_same] at hx
      cases hx
    · rw [upd_other _ _ _ _ hxc] at hx
      exact ⟨(h1 x hx).1, by rw [upd_other _ _ _ _ hxc]; exact (h1 x hx).2⟩
  · intro hpp hcs
    simp only [accept_conn] at hpp hcs ⊢
    obtain ⟨c', hc1, hc2, hc3, hc4, hc5⟩ := h2 hpp hcs
    have hne : c' ≠ c := by
      intro e
      rw [e, h] at hc3
      cases hc3
    refine ⟨c', hc1, hc2, ?_, ?_, ?_⟩
    · rw [upd_other _ _ _ _ hne]
      exact hc3
    · rw [upd_other _ _ _ _ hne]
      exact hc4
    · rw [upd_other _ _ _ _ hne]
      exact hc5

theorem fullInv_start_active (s : PNState) (c : Nat) (h : s.inPool c = false)
    (hi : fullInv s) : fullInv (start_active_conn c s) := by
  obtain ⟨h1, h2⟩ := hi
  constructor
  · intro x hx
    simp only [start_active_conn] at hx ⊢
    by_cases hxc : x = c
    · subst hxc
      rw [upd_same] at hx
      cases hx
    · rw [upd_other _ _ _ _ hxc] at hx
      exact ⟨(h1 x hx).1, by rw [upd_other _ _ _ _ hxc]; exact (h1 x hx).2⟩
  · intro hpp hcs
    simp only [start_active_conn] at hpp hcs ⊢
    obtain ⟨c', hc1, hc2, hc3, hc4, hc5⟩ := h2 hpp hcs
    have hne : c' ≠ c := by
      intro e
      rw [e, h] at hc3
      cases hc3
    refine ⟨c', hc1, hc2, ?_, ?_, ?_⟩
    · rw [upd_other _ _ _ _ hne]
      exact hc3
    · rw [upd_other _ _ _ _ hne]
      exact hc4
    · rw [upd_other _ _ _ _ hne]
      exact hc5

theorem fullInv_conn_peer (s : PNState) (n : Int) (newCid : Nat)
    (h : s.inPool newCid = false) (hi : fullInv s) :
    fullInv (conn_peer n newCid s) := by
  unfold conn_peer
  split
  · exact hi
  · split
    · exact hi
    · rename_i hpp haddr
      dsimp only
      split
      · rename_i hcase
        apply fullInv_start_active _ _ h
        constructor
        · intro x hx
          exact hi.1 x hx
        · intro hpp2 hcs2
          have hpp3 : s.peerPresent = true := hpp2
          have hcs3 : s.pstate = PState.CONNECTED := hcs2
          rcases hcase with hc | hc
          · exfalso
            obtain ⟨c', _, hc2, _, _, _⟩ := hi.2 hpp3 hcs3
            have hc' : s.pconn = none := hc
            rw [hc'] at hc2
            cases hc2
          · have hc' : s.pstate = PState.DISCONNECTED := hc
            rw [hc'] at hcs3
            cases hcs3
      · split
        · constructor
          · intro x hx
            exact hi.1 x hx
          · intro _ hcs
            cases hcs
        · rename_i hnd hnc
          constructor
          · intro x hx
            exact hi.1 x hx
          · intro hpp2 hcs2
            exact absurd hcs2 hnc

theorem upd_false_elim {f : Nat → Bool} {k x : Nat} (h : upd f k false x = true) :
    f x = true ∧ x ≠ k := by
  unfold upd at h
  split at h
  · cases h
  · rename_i hne
    exact ⟨h, hne⟩

theorem clear_backptr_true {f : Nat → Bool} {ob : Option Nat} {c x : Nat}
    (h : clear_backptr f ob c x = true) : f x = true := by
  unfold clear_backptr at h
  rcases ob with _ | k
  · exact h
  · dsimp only at h
    split at h
    · exact (upd_false_elim h).1
    · exact h

theorem clear_backptr_uncond_true {f : Nat → Bool} {ob : Option Nat} {x : Nat}
    (h : clear_backptr_uncond f ob x = true) : f x = true ∧ ob ≠ some x := by
  unfold clear_backptr_uncond at h
  rcases ob with _ | k
  · exact ⟨h, by intro e; cases e⟩
  · obtain ⟨h1, h2⟩ := upd_false_elim h
    exact ⟨h1, by intro e; exact h2 (Option.some.inj e).symm⟩

/-- `get_nonce` only touches the stored nonce. -/
theorem get_nonce_snd (rnd : Nat) (s : PNState) :
    (get_nonce rnd s).2 = { s with nonce := (get_nonce rnd s).1 } := by
  unfold get_nonce
  split
  · rfl
  · rfl

/-- A state that agrees with an invariant-satisfying one on the back-pointer
map, the current connection, the pool and is DISCONNECTED satisfies the
invariant. -/
theorem fullInv_of_fields {s t : PNState} (hi : fullInv s)
    (hhp : t.hasPeer = s.hasPeer) (hpc : t.pconn = s.pconn)
    (hip : t.inPool = s.inPool) (hst : t.pstate = .DISCONNECTED) :
    fullInv t := by
  constructor
  · intro x hx
    rw [hhp] at hx
    rw [hpc, hip]
    exact hi.1 x hx
  · intro _ hcs
    rw [hst] at hcs
    cases hcs

/-- `finish_handshake` establishes the invariant when the chosen connection
exists and is alive and the back-pointer part of the invariant holds. -/
theorem fullInv_finish_handshake (t : PNState) (c : Nat)
    (hch : t.chosen = some c) (hpool : t.inPool c = true)
    (hmode : t.mode c ≠ CMode.DEAD)
    (h1 : ∀ x, t.hasPeer x = true → t.pconn = some x ∧ t.inPool x = true) :
    fullInv (finish_handshake t) := by
  unfold finish_handshake
  rw [hch]
  dsimp only
  constructor
  · intro y hy
    dsimp only at hy
    by_cases hyc : y = c
    · subst hyc
      exact ⟨rfl, hpool⟩
    · rw [upd_other _ _ _ _ hyc] at hy
      obtain ⟨hy1, hy2⟩ := clear_backptr_uncond_true hy
      have hy3 := clear_backptr_true (clear_backptr_true hy1)
      exact absurd (h1 y hy3).1 hy2
  · intro _ _
    exact ⟨c, rfl, rfl, hpool, hmode, by dsimp only; rw [upd_same]⟩

theorem fullInv_ping (s : PNState) (c : Nat) (a : Option Nat) (n rnd : Nat)
    (hpool : s.inPool c = true) (hi : fullInv s) :
    fullInv (ping_handler c a n rnd s).1 := by
  unfold ping_handler
  split
  · exact hi
  rcases a with _ | x
  · exact hi
  dsimp only
  split
  · rename_i hpass
    split
    · exact hi
    rename_i hppF
    split
    · exact hi
    rename_i hguard
    push_neg at hguard
    obtain ⟨hdis, _⟩ := hguard
    have hm : s.mode c ≠ CMode.DEAD := by
      rw [hpass]
      intro hcon
      cases hcon
    by_cases haddr : s.addr = none
    · rw [if_pos haddr]
      dsimp only
      simp only [get_nonce_snd]
      split
      · dsimp only
        apply fullInv_finish_handshake
        · rfl
        · exact hpool
        · exact hm
        · exact hi.1
      · exact fullInv_of_fields hi rfl rfl rfl hdis
    · rw [if_neg haddr]
      simp only [get_nonce_snd]
      split
      · dsimp only
        apply fullInv_finish_handshake
        · rfl
        · exact hpool
        · exact hm
        · exact hi.1
      · exact fullInv_of_fields hi rfl rfl rfl hdis
  · exact hi

theorem fullInv_pong (s : PNState) (c : Nat) (a : Option Nat) (n rnd : Nat)
    (hpool : s.inPool c = true) (hi : fullInv s) :
    fullInv (pong_handler c a n rnd s).1 := by
  unfold pong_handler
  split
  · exact hi
  rcases a with _ | x
  · exact hi
  dsimp only
  split
  · rename_i hact
    split
    · exact hi
    rename_i hppF
    split
    · exact hi
    rename_i hguard
    push_neg at hguard
    obtain ⟨hdis, _⟩ := hguard
    have hm : s.mode c ≠ CMode.DEAD := by
      rw [hact]
      intro hcon
      cases hcon
    simp only [get_nonce_snd]
    split
    · dsimp only
      apply fullInv_finish_handshake
      · rfl
      · exact hpool
      · exact hm
      · exact hi.1
    · exact fullInv_of_fields hi rfl rfl rfl hdis
  · exact hi

/-- The teardown hook never touches the back-pointer map, the current
connection, the pool, the modes, the chosen connection or the registry
flag. -/
theorem on_teardown_fields (c : Nat) (s : PNState) :
    (on_teardown c s).1.hasPeer = s.hasPeer ∧ (on_teardown c s).1.pconn = s.pconn ∧
    (on_teardown c s).1.inPool = s.inPool ∧ (on_teardown c s).1.mode = s.mode ∧
    (on_teardown c s).1.chosen = s.chosen ∧
    (on_teardown c s).1.peerPresent = s.peerPresent := by
  unfold on_teardown
  split
  · exact ⟨rfl, rfl, rfl, rfl, rfl, rfl⟩
  · dsimp only
    split <;> (try dsimp only) <;> split <;> (try dsimp only) <;> split <;>
      exact ⟨rfl, rfl, rfl, rfl, rfl, rfl⟩

/-- If the peer is still CONNECTED after the teardown hook, it was CONNECTED
before and the hook's peer logic did not fire for its current connection. -/
theorem on_teardown_connected (c : Nat) (s : PNState)
    (h : (on_teardown c s).1.pstate = .CONNECTED) :
    s.pstate = .CONNECTED ∧
    (s.peerPresent = false ∨ s.hasPeer c = false ∨ s.pconn ≠ some c) := by
  unfold on_teardown at h
  split at h
  · rename_i hng
    refine ⟨h, ?_⟩
    rcases hng with hng | hng
    · exact Or.inl hng
    · exact Or.inr (Or.inl hng)
  · rename_i hok
    push_neg at hok
    dsimp only at h
    split at h
    · rename_i hpc
      exfalso
      split at h <;> split at h <;> cases h
    · rename_i hpc
      constructor
      · split at h <;> split at h <;> exact h
      · exact Or.inr (Or.inr hpc)

theorem fullInv_term (s : PNState) (c : Nat) (hpool : s.inPool c = true)
    (hi : fullInv s) : fullInv (terminate_conn c s) := by
  have hf := on_teardown_fields c { s with mode := upd s.mode c .DEAD }
  constructor
  · intro y hy
    unfold terminate_conn at hy ⊢
    rw [hf.1] at hy
    rw [hf.2.1, hf.2.2.1]
    exact hi.1 y hy
  · intro hpp hcs
    unfold terminate_conn at hpp hcs ⊢
    obtain ⟨hconn, hdisj⟩ := on_teardown_connected c _ hcs
    rw [hf.2.2.2.2.2] at hpp
    have hpp' : s.peerPresent = true := hpp
    have hconn' : s.pstate = PState.CONNECTED := hconn
    obtain ⟨c', h1, h2, h3, h4, h5⟩ := hi.2 hpp' hconn'
    have hcc : c' ≠ c := by
      intro e
      subst e
      rcases hdisj with hd | hd | hd
      · have hd' : s.peerPresent = false := hd
        rw [hpp'] at hd'
        cases hd'
      · have hd' : s.hasPeer c' = false := hd
        rw [h5] at hd'
        cases hd'
      · exact hd h2
    rw [hf.1, hf.2.1, hf.2.2.1, hf.2.2.2.1, hf.2.2.2.2.1]
    refine ⟨c', h1, h2, h3, ?_, h5⟩
    show upd s.mode c CMode.DEAD c' ≠ CMode.DEAD
    rw [upd_other _ _ _ _ hcc]
    exact h4

theorem fullInv_set_peer_addr (s : PNState) (a : Nat) (hi : fullInv s) :
    fullInv (set_peer_addr a s) := by
  unfold set_peer_addr
  split
  · constructor
    · intro y hy
      exact hi.1 y hy
    · intro hpp hcs
      exact hi.2 hpp hcs
  · exact hi

theorem fullInv_del_peer (s : PNState) (hi : fullInv s) : fullInv (del_peer s) := by
  unfold del_peer
  split
  · exact hi
  · constructor
    · intro y hy
      dsimp only at hy
      have hy1 := (clear_backptr_uncond_true hy).1
      have hy2 := (clear_backptr_uncond_true hy1).1
      exact hi.1 y hy2
    · intro hpp _
      cases hpp

theorem fullInv_step {s s' : PNState} (hi : fullInv s) (hs : Step s s') :
    fullInv s' := by
  cases hs with
  | accept c h => exact fullInv_accept _ c h hi
  | connPeer n newCid h => exact fullInv_conn_peer _ n newCid h hi
  | retryFire c h hp ha => exact fullInv_start_active _ c h hi
  | ping c a n rnd h => exact fullInv_ping _ c a n rnd h hi
  | pong c a n rnd h => exact fullInv_pong _ c a n rnd h hi
  | term c h hm => exact fullInv_term _ c h hi
  | setAddr a => exact fullInv_set_peer_addr _ a hi
  | delPeer => exact fullInv_del_peer _ hi

theorem reachable_fullInv {s : PNState} (h : Reachable s) : fullInv s := by
  induction h with
  | init => exact fullInv_initState
  | step hr hs ih => exact fullInv_step ih hs

/-- Claim C6: in every reachable state of the peer state machine, a peer in
state CONNECTED has a non-null chosen connection whose mode is not DEAD and
whose back-pointer `Conn::peer` points back at the peer, and no other
connection points at the peer; every dispatcher-thread operation
(`finish_handshake`, handshake handlers, connection teardown, `conn_peer`,
`del_peer`, and the pool/registry operations) preserves this, as the
induction over `Step` shows. -/
theorem c6_connected_invariant (s : PNState) (h : Reachable s) : claimInv s := by
  have hi := reachable_fullInv h
  intro hpp hcs
  obtain ⟨c, h1, h2, h3, h4, h5⟩ := hi.2 hpp hcs
  refine ⟨c, h1, h3, h4, h5, ?_⟩
  intro x hx
  have hp := (hi.1 x hx).1
  rw [h2] at hp
  exact (Option.some.inj hp).symm

/-- Witness for C6 at the concrete initial state (just-registered peer). -/
theorem c6_connected_invariant_witness : claimInv initState :=
  c6_connected_invariant initState Reachable.init

theorem get_nonce_fst (rnd : Nat) (s : PNState) :
    (get_nonce rnd s).1 = if s.nonce = 0 then genNonce rnd else s.nonce := by
  unfold get_nonce
  split
  · rfl
  · rfl

theorem get_nonce_fst_ne_zero (rnd : Nat) (s : PNState) :
    (get_nonce rnd s).1 ≠ 0 := by
  unfold get_nonce genNonce
  split
  · dsimp only
    omega
  · rename_i h
    exact h

theorem get_nonce_nz (rnd : Nat) (s : PNState) (h : s.nonce ≠ 0) :
    get_nonce rnd s = (s.nonce, s) := by
  unfold get_nonce
  rw [if_neg h]

/-- Drawing the nonce commutes with recording the inbound candidate. -/
theorem get_nonce_inbound (rnd : Nat) (u : PNState) (c : Nat) :
    get_nonce rnd { u with inbound := some c } =
      ((get_nonce rnd u).1, { (get_nonce rnd u).2 with inbound := some c }) := by
  unfold get_nonce
  dsimp only
  split
  · rfl
  · rfl

/-- Drawing the nonce commutes with recording the outbound candidate. -/
theorem get_nonce_outbound (rnd : Nat) (u : PNState) (c : Nat) :
    get_nonce rnd { u with outbound := some c } =
      ((get_nonce rnd u).1, { (get_nonce rnd u).2 with outbound := some c }) := by
  unfold get_nonce
  dsimp only
  split
  · rfl
  · rfl

/-- Full evaluation of the passive side's handshake branch of `ping_handler`
when the peer is known, DISCONNECTED, and its address is unset or matches
the claimed one. -/
theorem ping_handler_eval (s : PNState) (c x n rnd : Nat)
    (hpass : s.mode c = CMode.PASSIVE) (hpp : s.peerPresent = true)
    (hdis : s.pstate = PState.DISCONNECTED)
    (haddr : s.addr = none ∨ s.addr = some x) :
    ping_handler c (some x) n rnd s =
      (if n < (get_nonce rnd s).1 ∨ s.addr = none then
        (finish_handshake
          { (get_nonce rnd s).2 with inbound := some c, chosen := some c },
         ⟨some (if s.addr = none then passive_nonce else (get_nonce rnd s).1),
          false,
          (match s.inbound with
           | some oc => if oc = c then none else some oc
           | none => none), false, true⟩)
       else
        ({ (get_nonce rnd s).2 with inbound := some c },
         ⟨some (if s.addr = none then passive_nonce else (get_nonce rnd s).1),
          false,
          (match s.inbound with
           | some oc => if oc = c then none else some oc
           | none => none), true, false⟩)) := by
  unfold ping_handler
  rw [if_neg (by rw [hpass]; intro h; cases h)]
  dsimp only
  rw [if_pos hpass, if_neg (by rw [hpp]; intro h; cases h)]
  rw [if_neg (by
    rw [hdis]
    rcases haddr with h | h <;> simp [h])]
  rcases haddr with haddr | haddr
  · rw [if_pos haddr]
    (try dsimp only)
    rw [get_nonce_inbound]
    (try dsimp only)
    rw [if_pos haddr]
    rw [show (get_nonce rnd s).2.addr = s.addr from by rw [get_nonce_snd]]
  · simp only [haddr, Option.some_ne_none, reduceIte, or_false]
    rw [get_nonce_inbound rnd (get_nonce rnd s).2 c]
    rw [get_nonce_nz rnd (get_nonce rnd s).2 (by
      rw [show (get_nonce rnd s).2.nonce = (get_nonce rnd s).1 from by rw [get_nonce_snd]]
      exact get_nonce_fst_ne_zero rnd s)]
    rw [show (get_nonce rnd s).2.nonce = (get_nonce rnd s).1 from by rw [get_nonce_snd]]
    simp only [get_nonce_snd, haddr, Option.some_ne_none, reduceIte, or_false]

/-- Full evaluation of the active side's handshake branch of `pong_handler`
when the peer is known, DISCONNECTED and the claimed address matches the
peer's. -/
theorem pong_handler_eval (s : PNState) (c x n rnd : Nat)
    (hact : s.mode c = CMode.ACTIVE) (hpp : s.peerPresent = true)
    (hdis : s.pstate = PState.DISCONNECTED)
    (haddr : s.addr = some x) :
    pong_handler c (some x) n rnd s =
      (if (get_nonce rnd s).1 < n then
        (finish_handshake
          { (get_nonce rnd s).2 with outbound := some c, chosen := some c },
         ⟨none, false,
          (match s.outbound with
           | some oc => if oc = c then none else some oc
           | none => none), false, true⟩)
       else
        ({ (get_nonce rnd s).2 with outbound := some c, nonce := 0 },
         ⟨none, false,
          (match s.outbound with
           | some oc => if oc = c then none else some oc
           | none => none), true, false⟩)) := by
  unfold pong_handler
  rw [if_neg (by rw [hact]; intro h; cases h)]
  dsimp only
  rw [if_pos hact, if_neg (by rw [hpp]; intro h; cases h)]
  rw [if_neg (by
    rw [hdis, haddr]
    simp)]
  rw [get_nonce_outbound rnd s c]

/-- Claim C2: when the passive side receives a handshake Ping with claimed
address X on connection C for a known peer P with `P.state = DISCONNECTED`
and `P.addr` unset or equal to X, the handler replies on C with a Pong
carrying the passive sentinel nonce when `P.addr` is unset and
`P.get_nonce()` otherwise; terminates a previous inbound candidate
different from C; sets `P.inbound_conn = C`; and chooses C (sets
`P.chosen_conn = C` and runs `finish_handshake`) iff
`msg.nonce < P.get_nonce()` or `P.addr` is unset, otherwise terminates C. -/
theorem c2_ping_handler_known_peer (s : PNState) (c x n rnd : Nat)
    (hpass : s.mode c = CMode.PASSIVE) (hpp : s.peerPresent = true)
    (hdis : s.pstate = PState.DISCONNECTED)
    (haddr : s.addr = none ∨ s.addr = some x) :
    ((ping_handler c (some x) n rnd s).2.pongNonce =
      some (if s.addr = none then passive_nonce else (get_nonce rnd s).1)) ∧
    ((ping_handler c (some x) n rnd s).2.termOld =
      match s.inbound with
      | some oc => if oc = c then none else some oc
      | none => none) ∧
    ((ping_handler c (some x) n rnd s).1.inbound = some c) ∧
    ((ping_handler c (some x) n rnd s).2.finished = true ↔
      (n < (get_nonce rnd s).1 ∨ s.addr = none)) ∧
    ((ping_handler c (some x) n rnd s).2.finished = true →
      (ping_handler c (some x) n rnd s).1.chosen = some c ∧
      (ping_handler c (some x) n rnd s).1.pstate = PState.CONNECTED) ∧
    ((ping_handler c (some x) n rnd s).2.termConn = true ↔
      ¬ (n < (get_nonce rnd s).1 ∨ s.addr = none)) := by
  rw [ping_handler_eval s c x n rnd hpass hpp hdis haddr]
  by_cases hc : n < (get_nonce rnd s).1 ∨ s.addr = none
  · rw [if_pos hc]
    exact ⟨rfl, rfl, rfl, by simp [hc], fun _ => ⟨rfl, rfl⟩, by simp [hc]⟩
  · rw [if_neg hc]
    exact ⟨rfl, rfl, rfl, by simp [hc], by simp, by simp [hc]⟩

/-- A concrete passive-side state: peer known, address 2 set, stored nonce
9, a stale inbound candidate 5. -/
def c2_state : PNState :=
  { peerPresent := true, addr := some 2, nonce := 9, ntry := 0,
    pstate := .DISCONNECTED, pconn := none, chosen := none,
    inbound := some 5, outbound := none, inPool := fun _ => true,
    mode := fun _ => .PASSIVE, hasPeer := fun _ => false }

/-- Witness for C2 at a concrete input (msg nonce 3 < stored nonce 9, so
connection 1 is chosen and the stale inbound candidate 5 is terminated). -/
theorem c2_ping_handler_known_peer_witness :
    ((ping_handler 1 (some 2) 3 0 c2_state).2.pongNonce =
      some (if c2_state.addr = none then passive_nonce
            else (get_nonce 0 c2_state).1)) ∧
    ((ping_handler 1 (some 2) 3 0 c2_state).2.termOld =
      match c2_state.inbound with
      | some oc => if oc = 1 then none else some oc
      | none => none) ∧
    ((ping_handler 1 (some 2) 3 0 c2_state).1.inbound = some 1) ∧
    ((ping_handler 1 (some 2) 3 0 c2_state).2.finished = true ↔
      (3 < (get_nonce 0 c2_state).1 ∨ c2_state.addr = none)) ∧
    ((ping_handler 1 (some 2) 3 0 c2_state).2.finished = true →
      (ping_handler 1 (some 2) 3 0 c2_state).1.chosen = some 1 ∧
      (ping_handler 1 (some 2) 3 0 c2_state).1.pstate = PState.CONNECTED) ∧
    ((ping_handler 1 (some 2) 3 0 c2_state).2.termConn = true ↔
      ¬ (3 < (get_nonce 0 c2_state).1 ∨ c2_state.addr = none)) :=
  c2_ping_handler_known_peer c2_state 1 2 3 0 rfl rfl rfl (Or.inr rfl)

/-- Claim C1: with distinct nonzero local nonces `nA` and `nB` on a
configured pair, A's pong handler elects its outbound connection iff
`nA < nB`; B's ping handler elects its inbound end of the same connection
iff `nA < nB`; the mirrored connection is elected on both sides iff
`nB < nA`; and exactly one of the two connections is elected. -/
theorem c1_tiebreak (sA sB : PNState) (cAB cBA aA aB nA nB r1 r2 r3 r4 : Nat)
    (hA1 : sA.peerPresent = true) (hA2 : sA.pstate = PState.DISCONNECTED)
    (hA3 : sA.addr = some aB) (hA4 : sA.nonce = nA)
    (hB1 : sB.peerPresent = true) (hB2 : sB.pstate = PState.DISCONNECTED)
    (hB3 : sB.addr = some aA) (hB4 : sB.nonce = nB)
    (hnA : nA ≠ 0) (hnB : nB ≠ 0) (hne : nA ≠ nB)
    (hmA1 : sA.mode cAB = CMode.ACTIVE) (hmB1 : sB.mode cAB = CMode.PASSIVE)
    (hmA2 : sA.mode cBA = CMode.PASSIVE) (hmB2 : sB.mode cBA = CMode.ACTIVE) :
    ((pong_handler cAB (some aB) nB r1 sA).2.finished = true ↔ nA < nB) ∧
    ((ping_handler cAB (some aA) nA r2 sB).2.finished = true ↔ nA < nB) ∧
    ((ping_handler cBA (some aB) nB r3 sA).2.finished = true ↔ nB < nA) ∧
    ((pong_handler cBA (some aA) nA r4 sB).2.finished = true ↔ nB < nA) ∧
    (¬ (nA < nB ∧ nB < nA)) ∧ (nA < nB ∨ nB < nA) := by
  have gA1 : (get_nonce r1 sA).1 = nA := by
    rw [get_nonce_fst, hA4, if_neg hnA]
  have gB2 : (get_nonce r2 sB).1 = nB := by
    rw [get_nonce_fst, hB4, if_neg hnB]
  have gA3 : (get_nonce r3 sA).1 = nA := by
    rw [get_nonce_fst, hA4, if_neg hnA]
  have gB4 : (get_nonce r4 sB).1 = nB := by
    rw [get_nonce_fst, hB4, if_neg hnB]
  refine ⟨?_, ?_, ?_, ?_, by omega, by omega⟩
  · rw [pong_handler_eval sA cAB aB nB r1 hmA1 hA1 hA2 hA3, gA1]
    by_cases h : nA < nB
    · simp [h]
    · simp [h]
  · rw [ping_handler_eval sB cAB aA nA r2 hmB1 hB1 hB2 (Or.inr hB3), gB2, hB3]
    by_cases h : nA < nB
    · simp [h]
    · simp [h]
  · rw [ping_handler_eval sA cBA aB nB r3 hmA2 hA1 hA2 (Or.inr hA3), gA3, hA3]
    by_cases h : nB < nA
    · simp [h]
    · simp [h]
  · rw [pong_handler_eval sB cBA aA nA r4 hmB2 hB1 hB2 hB3, gB4]
    by_cases h : nB < nA
    · simp [h]
    · simp [h]

/-- Node A of a simultaneous dial: local nonce 1, remote address 11,
connection 0 outbound (ACTIVE), connection 1 inbound (PASSIVE). -/
def c1_stateA : PNState :=
  { peerPresent := true, addr := some 11, nonce := 1, ntry := 0,
    pstate := .DISCONNECTED, pconn := none, chosen := none,
    inbound := none, outbound := none, inPool := fun _ => true,
    mode := fun k => if k = 0 then .ACTIVE else .PASSIVE,
    hasPeer := fun _ => false }

/-- Node B of a simultaneous dial: local nonce 2, remote address 10,
connection 0 inbound (PASSIVE), connection 1 outbound (ACTIVE). -/
def c1_stateB : PNState :=
  { peerPresent := true, addr := some 10, nonce := 2, ntry := 0,
    pstate := .DISCONNECTED, pconn := none, chosen := none,
    inbound := none, outbound := none, inPool := fun _ => true,
    mode := fun k => if k = 0 then .PASSIVE else .ACTIVE,
    hasPeer := fun _ => false }

/-- Witness for C1 with nA = 1 < nB = 2: connection 0 (A's outbound) is
elected at both ends, connection 1 at neither. -/
theorem c1_tiebreak_witness :
    ((pong_handler 0 (some 11) 2 0 c1_stateA).2.finished = true ↔ 1 < 2) ∧
    ((ping_handler 0 (some 10) 1 0 c1_stateB).2.finished = true ↔ 1 < 2) ∧
    ((ping_handler 1 (some 11) 2 0 c1_stateA).2.finished = true ↔ 2 < 1) ∧
    ((pong_handler 1 (some 10) 1 0 c1_stateB).2.finished = true ↔ 2 < 1) ∧
    (¬ ((1 : Nat) < 2 ∧ 2 < 1)) ∧ ((1 : Nat) < 2 ∨ 2 < 1) :=
  c1_tiebreak c1_stateA c1_stateB 0 1 10 11 1 2 0 0 0 0
    rfl rfl rfl rfl rfl rfl rfl rfl
    (by decide) (by decide) (by decide) rfl rfl rfl rfl

/-- Claim C3 (amended): on a nonce tie (or any lost comparison) the active
side's pong handler terminates the connection and resets `P.nonce = 0`; the
passive side's ping handler, with its address set and the received nonce
not strictly smaller than its own, terminates the connection but leaves its
stored nonce unchanged — the reset on the passive side's peer happens in
its own pong handler (or on teardown of its current connection), not in
`ping_handler` (network.h lines 931-935 terminate without touching the
nonce; lines 992-999 reset it). -/
theorem c3_tie_reset (sA sB : PNState) (cA cP xA xP nPong nPing rA rP : Nat)
    (hmA : sA.mode cA = CMode.ACTIVE) (hA1 : sA.peerPresent = true)
    (hA2 : sA.pstate = PState.DISCONNECTED) (hA3 : sA.addr = some xA)
    (hAnz : sA.nonce ≠ 0) (htA : ¬ sA.nonce < nPong)
    (hmP : sB.mode cP = CMode.PASSIVE) (hB1 : sB.peerPresent = true)
    (hB2 : sB.pstate = PState.DISCONNECTED) (hB3 : sB.addr = some xP)
    (hBnz : sB.nonce ≠ 0) (htP : ¬ nPing < sB.nonce) :
    ((pong_handler cA (some xA) nPong rA sA).2.termConn = true) ∧
    ((pong_handler cA (some xA) nPong rA sA).1.nonce = 0) ∧
    ((ping_handler cP (some xP) nPing rP sB).2.termConn = true) ∧
    ((ping_handler cP (some xP) nPing rP sB).1.nonce = sB.nonce) := by
  have gA : (get_nonce rA sA).1 = sA.nonce := by
    rw [get_nonce_fst, if_neg hAnz]
  have gB : (get_nonce rP sB).1 = sB.nonce := by
    rw [get_nonce_fst, if_neg hBnz]
  rw [pong_handler_eval sA cA xA nPong rA hmA hA1 hA2 hA3, gA, if_neg htA]
  rw [ping_handler_eval sB cP xP nPing rP hmP hB1 hB2 (Or.inr hB3), gB,
    if_neg (by rw [hB3]; simp [htP])]
  refine ⟨rfl, rfl, rfl, ?_⟩
  simp only [get_nonce_snd]
  exact gB

/-- A concrete passive-side tie: stored nonce 5, receiving a handshake Ping
with nonce 5 on passive connection 0 from the configured address 1. -/
def c3_state : PNState :=
  { peerPresent := true, addr := some 1, nonce := 5, ntry := 0,
    pstate := .DISCONNECTED, pconn := none, chosen := none,
    inbound := none, outbound := none, inPool := fun _ => true,
    mode := fun _ => .PASSIVE, hasPeer := fun _ => false }

/-- Counterexample to C3 as stated: on the tie the passive side's ping
handler terminates the connection but its stored nonce stays 5 — it is NOT
reset to 0 as the claim asserts. -/
theorem c3_counterexample_ping_keeps_nonce :
    (ping_handler 0 (some 1) 5 0 c3_state).2.termConn = true ∧
    (ping_handler 0 (some 1) 5 0 c3_state).1.nonce = 5 := by
  decide

/-- A concrete active-side tie: stored nonce 5, receiving a handshake Pong
with nonce 5 on active connection 0 from the configured address 1. -/
def c3_stateA : PNState :=
  { peerPresent := true, addr := some 1, nonce := 5, ntry := 0,
    pstate := .DISCONNECTED, pconn := none, chosen := none,
    inbound := none, outbound := none, inPool := fun _ => true,
    mode := fun _ => .ACTIVE, hasPeer := fun _ => false }

/-- Witness for the amended C3 at the concrete ties above. -/
theorem c3_tie_reset_witness :
    ((pong_handler 0 (some 1) 5 0 c3_stateA).2.termConn = true) ∧
    ((pong_handler 0 (some 1) 5 0 c3_stateA).1.nonce = 0) ∧
    ((ping_handler 0 (some 1) 5 0 c3_state).2.termConn = true) ∧
    ((ping_handler 0 (some 1) 5 0 c3_state).1.nonce = c3_state.nonce) :=
  c3_tie_reset c3_stateA c3_state 0 0 1 1 5 5 0 0
    rfl rfl rfl rfl (by decide) (by decide)
    rfl rfl rfl rfl (by decide) (by decide)

/-- Counterexample to C4 as stated: `Peer::get_nonce` computes
`nonce = n + 1` for a random `uint16_t` n, so the draw n = 0xffff yields
nonce 0x10000, outside the claimed range 1..=0xFFFF and strictly GREATER
than the passive sentinel 0xffff; the draw n = 0xfffe yields nonce 0xffff,
EQUAL to the sentinel.  A fresh peer (stored nonce 0) exhibits this through
`get_nonce` itself. -/
theorem c4_counterexample_nonce_range :
    genNonce 65535 = 65536 ∧ passive_nonce = 65535 ∧
    ¬ genNonce 65535 ≤ 0xffff ∧ ¬ genNonce 65535 < passive_nonce ∧
    genNonce 65534 = passive_nonce ∧
    (get_nonce 65535 initState).1 = 65536 := by
  decide

/-- Claim C4 (amended): a lazily generated handshake nonce `n + 1` lies in
1..=0x10000 (0 still means "unset"), and it is strictly smaller than the
fixed passive sentinel 0xffff iff the 16-bit draw is below 0xfffe; a remote
peer presenting a regular nonce therefore wins against the sentinel except
when the draw is 0xfffe (tie) or 0xffff (loss). -/
theorem c4_nonce_range (rnd : Nat) :
    1 ≤ genNonce rnd ∧ genNonce rnd ≤ 65536 ∧
    (genNonce rnd < passive_nonce ↔ rnd % 65536 < 65534) ∧
    (initState.nonce = 0 ∧ (get_nonce rnd initState).1 = genNonce rnd) := by
  refine ⟨?_, ?_, ?_, rfl, rfl⟩
  · unfold genNonce
    omega
  · unfold genNonce
    omega
  · unfold genNonce passive_nonce
    omega

/-- Concrete state for C5: the peer's current connection is 3, carrying the
back-pointer, with `ntry = 1` at the moment of teardown. -/
def c5_state : PNState :=
  { peerPresent := true, addr := some 1, nonce := 7, ntry := 1,
    pstate := .DISCONNECTED, pconn := some 3, chosen := some 3,
    inbound := none, outbound := none,
    inPool := fun k => decide (k = 3), mode := fun _ => .ACTIVE,
    hasPeer := fun k => decide (k = 3) }

/-- Counterexample to C5 as stated: at teardown of the current connection
with `ntry = 1 ≠ 0`, NO retry timer is armed — the code decrements `ntry`
to 0 before testing it (network.h lines 766-767). -/
theorem c5_counterexample_ntry_one :
    c5_state.ntry ≠ 0 ∧ c5_state.pconn = some 3 ∧
    (on_teardown 3 c5_state).2.retryArmed = false ∧
    (on_teardown 3 c5_state).1.ntry = 0 := by
  decide

/-- Claim C5 (amended): on teardown of a connection carrying the peer's
back-pointer, `ntry` is decremented first when positive, and a retry timer
is armed iff the decremented value is nonzero — that is, iff `ntry` at
teardown is neither 0 nor 1 — with immediate zero delay iff the state prior
to teardown was RESET (else a jittered `retry_delay`); when the torn-down
connection was the peer's current one, the user is notified and the peer
becomes DISCONNECTED. -/
theorem c5_retry_policy (s : PNState) (c : Nat)
    (hpp : s.peerPresent = true) (hhp : s.hasPeer c = true) :
    ((on_teardown c s).2.retryArmed = true ↔ (s.ntry ≠ 0 ∧ s.ntry ≠ 1)) ∧
    ((on_teardown c s).2.retryZeroDelay = true ↔
      ((s.ntry ≠ 0 ∧ s.ntry ≠ 1) ∧ s.pstate = PState.RESET)) ∧
    ((on_teardown c s).1.ntry = if s.ntry > 0 then s.ntry - 1 else s.ntry) ∧
    (s.pconn = some c → (on_teardown c s).2.notified = true ∧
      (on_teardown c s).1.pstate = PState.DISCONNECTED) := by
  have hguard : ¬ (s.peerPresent = false ∨ s.hasPeer c = false) := by
    rw [hpp, hhp]
    simp
  have h1 : (on_teardown c s).2.retryArmed = true ↔
      (s.ntry ≠ 0 ∧ s.ntry ≠ 1) := by
    unfold on_teardown
    rw [if_neg hguard]
    by_cases hpc : s.pconn = some c
    · rw [if_pos hpc]
      dsimp only
      by_cases hn : s.ntry > 0
      · rw [if_pos hn]
        dsimp only
        by_cases hz : s.ntry - 1 ≠ 0
        · rw [if_pos hz]
          simp
          omega
        · rw [if_neg hz]
          simp
          omega
      · rw [if_neg hn]
        by_cases hz : s.ntry ≠ 0
        · rw [if_pos hz]
          simp [hz]
          omega
        · rw [if_neg hz]
          simp
          omega
    · rw [if_neg hpc]
      dsimp only
      by_cases hn : s.ntry > 0
      · rw [if_pos hn]
        dsimp only
        by_cases hz : s.ntry - 1 ≠ 0
        · rw [if_pos hz]
          simp
          omega
        · rw [if_neg hz]
          simp
          omega
      · rw [if_neg hn]
        by_cases hz : s.ntry ≠ 0
        · rw [if_pos hz]
          simp [hz]
          omega
        · rw [if_neg hz]
          simp
          omega
  have h2x : (on_teardown c s).2.retryZeroDelay = true ↔
      ((on_teardown c s).2.retryArmed = true ∧ s.pstate = PState.RESET) := by
    unfold on_teardown
    rw [if_neg hguard]
    by_cases hpc : s.pconn = some c
    · rw [if_pos hpc]
      dsimp only
      by_cases hn : s.ntry > 0
      · rw [if_pos hn]
        dsimp only
        by_cases hz : s.ntry - 1 ≠ 0
        · rw [if_pos hz]
          simp
        · rw [if_neg hz]
          simp
      · rw [if_neg hn]
        by_cases hz : s.ntry ≠ 0
        · rw [if_pos hz]
          simp
        · rw [if_neg hz]
          simp
    · rw [if_neg hpc]
      dsimp only
      by_cases hn : s.ntry > 0
      · rw [if_pos hn]
        dsimp only
        by_cases hz : s.ntry - 1 ≠ 0
        · rw [if_pos hz]
          simp
        · rw [if_neg hz]
          simp
      · rw [if_neg hn]
        by_cases hz : s.ntry ≠ 0
        · rw [if_pos hz]
          simp
        · rw [if_neg hz]
          simp
  have h2 : (on_teardown c s).2.retryZeroDelay = true ↔
      ((s.ntry ≠ 0 ∧ s.ntry ≠ 1) ∧ s.pstate = PState.RESET) := by
    rw [h2x, h1]
  have h3 : (on_teardown c s).1.ntry =
      if s.ntry > 0 then s.ntry - 1 else s.ntry := by
    unfold on_teardown
    rw [if_neg hguard]
    by_cases hn : s.ntry > 0
    · rw [if_pos hn]
      by_cases hpc : s.pconn = some c
      · rw [if_pos hpc]
        dsimp only
        rw [if_pos hn]
        split <;> rfl
      · rw [if_neg hpc]
        dsimp only
        rw [if_pos hn]
        split <;> rfl
    · rw [if_neg hn]
      by_cases hpc : s.pconn = some c
      · rw [if_pos hpc]
        dsimp only
        rw [if_neg hn]
        split <;> rfl
      · rw [if_neg hpc]
        dsimp only
        rw [if_neg hn]
        split <;> rfl
  have h4 : s.pconn = some c → (on_teardown c s).2.notified = true ∧
      (on_teardown c s).1.pstate = PState.DISCONNECTED := by
    intro hpc
    unfold on_teardown
    rw [if_neg hguard, if_pos hpc]
    dsimp only
    constructor
    · split <;> split <;> rfl
    · split <;> split <;> rfl
  exact ⟨h1, h2, h3, h4⟩

/-- Witness for the amended C5 at the `ntry = 1` state: no retry is armed
and the counter reaches 0. -/
theorem c5_retry_policy_witness :
    ((on_teardown 3 c5_state).2.retryArmed = true ↔
      (c5_state.ntry ≠ 0 ∧ c5_state.ntry ≠ 1)) ∧
    ((on_teardown 3 c5_state).2.retryZeroDelay = true ↔
      ((c5_state.ntry ≠ 0 ∧ c5_state.ntry ≠ 1) ∧
        c5_state.pstate = PState.RESET)) ∧
    ((on_teardown 3 c5_state).1.ntry =
      if c5_state.ntry > 0 then c5_state.ntry - 1 else c5_state.ntry) ∧
    (c5_state.pconn = some 3 → (on_teardown 3 c5_state).2.notified = true ∧
      (on_teardown 3 c5_state).1.pstate = PState.DISCONNECTED) :=
  c5_retry_policy c5_state 3 rfl (by decide)

/-! ## Send queue bound (`ConnPool::Conn::write`, conn.h lines 130-134) -/

/-- Modelled from the spec: buffer.h (`MPSCWriteBuffer::push`) is not under
src/.  Per the spec, with `unbounded` the push always succeeds; bounded, it
fails synchronously once the queue would grow beyond the capacity, and
succeeds again whenever the queue is below capacity. -/
def mpsc_push (cap : Nat) (unbounded : Bool) (q : List (List Nat))
    (x : List Nat) : List (List Nat) × Bool :=
  if unbounded = true ∨ q.length < cap then (q ++ [x], true) else (q, false)

/-- `ConnPool::Conn::write` (conn.h lines 132-134): push onto the send
buffer, unbounded exactly when the pool's `queue_capacity` is 0. -/
def conn_write (queue_capacity : Nat) (q : List (List Nat))
    (data : List Nat) : List (List Nat) × Bool :=
  mpsc_push queue_capacity (decide (queue_capacity = 0)) q data

/-- `MsgNetwork::_send_msg` (network.h lines 687-698): serialize and return
`conn->write(std::move(msg_data))`; the returned Boolean is exactly the
push's. -/
def msgnet_send_msg (queue_capacity : Nat) (q : List (List Nat))
    (msg_data : List Nat) : List (List Nat) × Bool :=
  conn_write queue_capacity q msg_data

/-- Claim C9: with `queue_capacity = 0` (the default) `Conn::write` — and
hence `send_msg` on a live connection — always returns true, the queue
being unbounded; with `queue_capacity = K > 0`, a push succeeds iff the
queue currently holds fewer than K items (so the push that would fill it
beyond K fails synchronously, and pushes succeed again once the queue
drains below capacity). -/
theorem c9_queue_capacity (K : Nat) (q : List (List Nat)) (d : List Nat) :
    (msgnet_send_msg 0 q d).2 = true ∧
    (0 < K → ((msgnet_send_msg K q d).2 = true ↔ q.length < K)) := by
  constructor
  · unfold msgnet_send_msg conn_write mpsc_push
    simp
  · intro hK
    unfold msgnet_send_msg conn_write mpsc_push
    rw [decide_eq_false (by omega)]
    by_cases h : q.length < K
    · rw [if_pos (Or.inr h)]
      simp [h]
    · rw [if_neg (by simp [h])]
      simp [h]

/-- Witness for C9 with capacity 1: an empty queue accepts, a full one
refuses. -/
theorem c9_queue_capacity_witness :
    ((msgnet_send_msg 0 [[2]] [1]).2 = true ∧
      (0 < 1 → ((msgnet_send_msg 1 [[2]] [1]).2 = true ↔
        ([[2]] : List (List Nat)).length < 1))) ∧
    ((msgnet_send_msg 0 [] [1]).2 = true ∧
      (0 < 1 → ((msgnet_send_msg 1 [] [1]).2 = true ↔
        ([] : List (List Nat)).length < 1))) :=
  ⟨c9_queue_capacity 1 [[2]] [1], c9_queue_capacity 1 [] [1]⟩

/-! ## `MsgNetwork::Config` setters (network.h lines 158-192) -/

/-- The configuration fields of `MsgNetwork::Config`. -/
structure MsgNetConfig where
  max_msg_size : Nat
  max_msg_queue_size : Nat
  burst_size : Nat
  msg_magic : Nat
deriving DecidableEq, Repr

/-- The default `MsgNetwork::Config` (network.h lines 166-172). -/
def msgNetConfigDefault : MsgNetConfig :=
  { max_msg_size := 1024, max_msg_queue_size := 65536,
    burst_size := 1000, msg_magic := 0 }

/-- Each setter stores its argument and either executes `return *this`
(second component `true`) or falls off the end of the `Config&`-returning
function without returning (second component `false`).
`Config::max_msg_size` (network.h lines 174-177). -/
def config_max_msg_size (c : MsgNetConfig) (x : Nat) : MsgNetConfig × Bool :=
  ({ c with max_msg_size := x }, true)

/-- `Config::max_msg_queue_size` (network.h lines 179-182). -/
def config_max_msg_queue_size (c : MsgNetConfig) (x : Nat) :
    MsgNetConfig × Bool :=
  ({ c with max_msg_queue_size := x }, true)

/-- `Config::burst_size` (network.h lines 184-187). -/
def config_burst_size (c : MsgNetConfig) (x : Nat) : MsgNetConfig × Bool :=
  ({ c with burst_size := x }, true)

/-- `Config::msg_magic` (network.h lines 189-191): the body is
`_msg_magic = x;` with NO return statement, although the function is
declared `Config &`. -/
def config_msg_magic (c : MsgNetConfig) (x : Nat) : MsgNetConfig × Bool :=
  ({ c with msg_magic := x }, false)

/-- Claim C10 (evaluated at the failing input): `Config::msg_magic` stores
its argument like every other setter, but unlike all of them it produces no
`Config&` return value — the function falls off the end (undefined
behaviour in C++ as soon as the chained result is used), so chaining a
further setter after `msg_magic(x)` is NOT well-defined. -/
theorem c10_msg_magic_missing_return (c : MsgNetConfig) (x : Nat) :
    (config_msg_magic c x).1.msg_magic = x ∧
    (config_msg_magic c x).2 = false ∧
    (config_max_msg_size c x).2 = true ∧
    (config_max_msg_queue_size c x).2 = true ∧
    (config_burst_size c x).2 = true :=
  ⟨rfl, rfl, rfl, rfl, rfl⟩

end Salticidae
